import Mathlib

/-!
Verification development for the rag-scraper repository.

The Python sources are shallowly embedded: pure string manipulation is
re-implemented over `List Char`, the crawl loops become fuel-indexed
recursive functions over explicit state, Python dicts with unique keys
become insertion-ordered association lists, and fallible code returns
`Except`.  External collaborators (the HTTP session, BeautifulSoup
parsing, `urljoin`/`urlparse` canonicalization, the sentence-transformer
model, the `re` email regex, JSON (de)serialization and the filesystem)
enter as parameters or as fields of a `Fetch` world so that only the
repository's own logic is modelled.
-/

namespace RagScraper

/-- Equality of `Except` results is decidable componentwise (used to
settle concrete runs by `decide`). -/
instance {ε α : Type} [DecidableEq ε] [DecidableEq α] : DecidableEq (Except ε α) := fun x y =>
  match x, y with
  | .ok a, .ok b =>
    if h : a = b then isTrue (by rw [h]) else isFalse (fun hc => by cases hc; exact h rfl)
  | .error a, .error b =>
    if h : a = b then isTrue (by rw [h]) else isFalse (fun hc => by cases hc; exact h rfl)
  | .ok _, .error _ => isFalse (fun hc => Except.noConfusion hc)
  | .error _, .ok _ => isFalse (fun hc => Except.noConfusion hc)

/-! ## Python string primitives -/

/-- Characters matched by Python's `\s` regex class and stripped by
`str.strip()` (ASCII range). -/
def pyIsSpace (c : Char) : Bool :=
  c = ' ' || c = '\t' || c = '\n' || c = '\r' || c.toNat = 11 || c.toNat = 12

/-- Python `str.strip()`: remove leading and trailing whitespace. -/
def pyStrip (s : String) : String :=
  ⟨((s.data.dropWhile pyIsSpace).reverse.dropWhile pyIsSpace).reverse⟩

/-- Python `str.lower()` (ASCII behaviour). -/
def pyLower (s : String) : String :=
  ⟨s.data.map Char.toLower⟩

/-- Python `needle in hay` substring test. -/
def pySubstr (needle hay : String) : Bool :=
  hay.data.tails.any (fun t => needle.data.isPrefixOf t)

/-- Python `s.startswith(pre)`. -/
def pyStartsWith (s pre : String) : Bool :=
  pre.data.isPrefixOf s.data

/-- Python `c in s` for a single character. -/
def pyContainsChar (c : Char) (s : String) : Bool :=
  s.data.contains c

/-- Helper for `pySplitChar`. -/
def pySplitCharGo (sep : Char) : List Char → List Char → List String
  | [], acc => [⟨acc.reverse⟩]
  | c :: cs, acc =>
    if c = sep then ⟨acc.reverse⟩ :: pySplitCharGo sep cs []
    else pySplitCharGo sep cs (c :: acc)

/-- Python `s.split(sep)` for a one-character separator (keeps empty parts). -/
def pySplitChar (sep : Char) (s : String) : List String :=
  pySplitCharGo sep s.data []

/-- Helper for `pySplit1`. -/
def pySplit1Go (sep : Char) : List Char → List Char → List String
  | [], acc => [⟨acc.reverse⟩]
  | c :: cs, acc =>
    if c = sep then [⟨acc.reverse⟩, ⟨cs⟩]
    else pySplit1Go sep cs (c :: acc)

/-- Python `s.split(sep, 1)`: split at the first occurrence only. -/
def pySplit1 (sep : Char) (s : String) : List String :=
  pySplit1Go sep s.data []

/-- Python `", ".join(xs)` specialised to an arbitrary separator. -/
def pyJoin (sep : String) (xs : List String) : String :=
  ⟨List.intercalate sep.data (xs.map String.data)⟩

/-- Python `len(s)` (code points). -/
def pyLen (s : String) : Nat := s.data.length

/-- The `x[:100] + "..." if len(x) > 100 else x` pattern used both for
page descriptions and persisted chunk excerpts. -/
def pyTruncate100 (s : String) : String :=
  if 100 < pyLen s then ⟨s.data.take 100⟩ ++ "..." else s

/-- Python `int(s)`: strip whitespace, optional sign, decimal digits;
anything else raises `ValueError` (modelled as `Except.error`).
(Underscore separators and non-ASCII digits are not modelled; no input
considered here uses them.) -/
def pyInt (s : String) : Except Unit Int :=
  let t := (pyStrip s).data
  let (neg, ds) :=
    match t with
    | '-' :: cs => (true, cs)
    | '+' :: cs => (false, cs)
    | cs => (false, cs)
  if ds ≠ [] ∧ ds.all Char.isDigit then
    let n : Nat := ds.foldl (fun a c => a * 10 + (c.toNat - '0'.toNat)) 0
    .ok (if neg then -(n : Int) else (n : Int))
  else .error ()

/-! ## URLs and configuration

A `Url` is the canonical form the scraper works with: in
`_extract_links` every candidate is rebuilt as
`f"{parsed.scheme}://{parsed.netloc}{parsed.path}"`, i.e. query and
fragment are already stripped.  `urljoin`/`urlparse` are stdlib
collaborators, so the crawl world hands links over in this form. -/

structure Url where
  scheme : String
  host : String
  path : String
deriving DecidableEq, Repr

/-- The string form of a canonical URL (what Python passes around). -/
def Url.str (u : Url) : String :=
  u.scheme ++ "://" ++ u.host ++ u.path

/-- Model of `ScraperConfig` (config-module.py).  `delay` and `timeout` only
shape real-time behaviour and are omitted; `maxDepth` mirrors the
`max_depth` field ("Maximum depth to crawl (None for unlimited)"). -/
structure ScraperConfig where
  domain : String
  startUrls : List Url
  maxPages : Nat
  respectRobotsTxt : Bool
  userAgent : String
  maxDepth : Option Nat
  allowedDomains : List String
deriving DecidableEq, Repr

/-! ## Politeness policy (robots.txt parsing and `_is_allowed`) -/

/-- One pass of the `for line in lines` loop of `_parse_robots_txt`:
state is (does the current user-agent section apply?, collected
disallow prefixes). -/
def robotsLineStep (userAgent : String) (st : Bool × List String) (rawLine : String) :
    Bool × List String :=
  let line := pyStrip rawLine
  if pyStartsWith (pyLower line) "user-agent:" then
    let agent := pyStrip (pySplit1 ':' line).getLast!
    (agent = "*" || pySubstr agent userAgent, st.2)
  else if st.1 && pyStartsWith (pyLower line) "disallow:" then
    let path := pyStrip (pySplit1 ':' line).getLast!
    if path ≠ "" then (st.1, st.2 ++ [path]) else st
  else st

/-- Model of `_parse_robots_txt` on a successfully fetched (HTTP 200) robots.txt
body: the ordered list of disallow prefixes applying to this crawler.
A missing/failed document yields `[]` (fail open). -/
def parseRobotsTxt (userAgent robotsBody : String) : List String :=
  ((pySplitChar '\n' robotsBody).foldl (robotsLineStep userAgent) (false, [])).2

/-- Model of `_is_allowed` (identical in scraper-module.py and
interactive-scraper-module.py): host must be in the allowed-domain set
and the path must not start with any disallow prefix (a bare "/" prefix
rejects everything). -/
def isAllowed (allowedDomains disallowedPaths : List String) (u : Url) : Bool :=
  allowedDomains.contains u.host &&
    !(disallowedPaths.any (fun p => p = "/" || pyStartsWith u.path p))

/-! ## The crawl world

`Fetch` is what the external collaborators return for one URL: the HTTP
status (transport exceptions are folded into a non-200 status, which the
code treats identically), the canonicalized outbound links BeautifulSoup
and `urljoin` produce, and the page metadata `_extract_page_info` reads
from the parsed HTML. -/

structure Fetch where
  status : Nat
  links : List Url
  title : String
  description : String
  contentSize : Nat
  htmlSize : Nat
deriving DecidableEq, Repr

/-- Model of `_extract_links`: keep a candidate iff it passes `_is_allowed` and
is not already in the visited set (the current page was added to the
visited set before extraction). -/
def extractLinks (allowedDomains disallowedPaths : List String)
    (visited : List Url) (rawLinks : List Url) : List Url :=
  rawLinks.filter (fun u =>
    isAllowed allowedDomains disallowedPaths u && !visited.contains u)

/-! ## Standard crawl loop (`WebScraper.scrape`)

The `while urls_to_visit and len(self.visited_urls) < max_pages` loop,
fuel-indexed (the Python loop may diverge on an unbounded site; every
claim proved about it is a safety property that holds at each fuel).
The visited set is a `List Url` to which a URL is appended only when
absent, mirroring `set.add` guarded by the `if url in self.visited_urls`
check; `fname` abstracts the `f"{filename}_{hash(url)}.html"` output
path (Python's `hash` is run-dependent). -/

def scrapeLoop (allowedDomains disallowedPaths : List String) (maxPages : Nat)
    (world : Url → Fetch) (fname : Url → String) :
    Nat → List Url → List Url → List (Url × String) → List Url × List (Url × String)
  | 0, _, visited, cmap => (visited, cmap)
  | _ + 1, [], visited, cmap => (visited, cmap)
  | fuel + 1, url :: rest, visited, cmap =>
    if visited.length < maxPages then
      if url ∈ visited then
        scrapeLoop allowedDomains disallowedPaths maxPages world fname fuel rest visited cmap
      else
        let visited' := visited ++ [url]
        if (world url).status = 200 then
          let links := extractLinks allowedDomains disallowedPaths visited' (world url).links
          scrapeLoop allowedDomains disallowedPaths maxPages world fname fuel
            (rest ++ links) visited' (cmap ++ [(url, fname url)])
        else
          scrapeLoop allowedDomains disallowedPaths maxPages world fname fuel rest visited' cmap
    else (visited, cmap)

/-- Model of `WebScraper.scrape`: start from `config.start_urls` (enqueued as-is,
with no policy filtering), empty visited set, empty content map.
Returns (visited set, content map). -/
def scrape (cfg : ScraperConfig) (disallowedPaths : List String)
    (world : Url → Fetch) (fname : Url → String) (fuel : Nat) :
    List Url × List (Url × String) :=
  scrapeLoop cfg.allowedDomains disallowedPaths cfg.maxPages world fname fuel
    cfg.startUrls [] []

/-! ## Interactive discovery (`InteractiveWebScraper.discover_pages`) -/

/-- The page-record dict built by `_extract_page_info`: title and
description come from BeautifulSoup (external, supplied by the world),
the description is truncated to 100 characters with an ellipsis. -/
structure PageInfo where
  url : Url
  title : String
  description : String
  contentSize : Nat
  htmlSize : Nat
deriving DecidableEq, Repr

/-- Build the `page_info` dict for a fetched page. -/
def mkPageInfo (u : Url) (f : Fetch) : PageInfo :=
  { url := u
    title := f.title
    description := pyTruncate100 f.description
    contentSize := f.contentSize
    htmlSize := f.htmlSize }

/-- The `while urls_to_visit and len(self.visited_urls) < max_pages`
loop of `discover_pages`: identical frontier management to `scrape`,
but it accumulates `discovered_pages` records instead of persisting
content.  Each URL is recorded at most once (the visited-set guard), so
the insertion-ordered list models the Python dict faithfully. -/
def discoverLoop (allowedDomains disallowedPaths : List String) (maxPages : Nat)
    (world : Url → Fetch) :
    Nat → List Url → List Url → List PageInfo → List Url × List PageInfo
  | 0, _, visited, discovered => (visited, discovered)
  | _ + 1, [], visited, discovered => (visited, discovered)
  | fuel + 1, url :: rest, visited, discovered =>
    if visited.length < maxPages then
      if url ∈ visited then
        discoverLoop allowedDomains disallowedPaths maxPages world fuel rest visited discovered
      else
        let visited' := visited ++ [url]
        if (world url).status = 200 then
          let links := extractLinks allowedDomains disallowedPaths visited' (world url).links
          discoverLoop allowedDomains disallowedPaths maxPages world fuel
            (rest ++ links) visited' (discovered ++ [mkPageInfo url (world url)])
        else
          discoverLoop allowedDomains disallowedPaths maxPages world fuel rest visited' discovered
    else (visited, discovered)

/-- Model of `discover_pages(max_pages)`: fresh visited set, frontier seeded with
the start URLs (again unfiltered). -/
def discoverPages (cfg : ScraperConfig) (disallowedPaths : List String)
    (world : Url → Fetch) (fuel maxPages : Nat) : List Url × List PageInfo :=
  discoverLoop cfg.allowedDomains disallowedPaths maxPages world fuel cfg.startUrls [] []

/-! ## Interactive selection (`select_pages_interactive`) -/

/-- One scripted operator decision at the selection prompt.  The
keyword choice carries the subsequent `Confirm.ask` answer; `other`
is any menu integer outside 1..4 (which re-prompts). -/
inductive OpChoice where
  | selAll : OpChoice
  | selIndex (s : String) : OpChoice
  | selKeyword (kw : String) (confirm : Bool) : OpChoice
  | selNone : OpChoice
  | other (n : Int) : OpChoice
deriving DecidableEq, Repr

/-- How selection can fail: `valueError` models an uncaught Python
`ValueError` escaping `select_pages_interactive` (malformed index
token); `promptEnd` is a modelling artifact marking exhaustion of the
scripted operator inputs (the real prompt would block). -/
inductive SelectError where
  | valueError : SelectError
  | promptEnd : SelectError
deriving DecidableEq, Repr

/-- Insert into the model of a Python `set` of ints.  The set is kept
as a sorted duplicate-free list: for the small non-negative ints
produced by index selection, CPython's set iteration order is ascending
numeric order, and every claim about the selection is order-insensitive
set membership anyway. -/
def insertIntSet (x : Int) : List Int → List Int
  | [] => [x]
  | y :: ys =>
    if x < y then x :: y :: ys
    else if x = y then y :: ys
    else y :: insertIntSet x ys

/-- Python `range(s, e + 1)` over ints as a list. -/
def intRangeIncl (s e : Int) : List Int :=
  if s ≤ e then (List.range (e + 1 - s).toNat).map (fun i => s + (i : Int)) else []

/-- The index-string parser inside the `BY_INDEX` branch: split on
commas; a part containing a dash is split on dashes and must have
exactly two integer endpoints (`start, end = map(int, part.split('-'))`,
any other shape raises `ValueError`); otherwise the part itself must
parse as an int.  The resulting index set accumulates across parts. -/
def parseIndexSpec (s : String) : Except Unit (List Int) :=
  (pySplitChar ',' s).foldlM
    (fun acc part =>
      if pyContainsChar '-' part then
        match pySplitChar '-' part with
        | [a, b] => do
          let lo ← pyInt a
          let hi ← pyInt b
          pure ((intRangeIncl lo hi).foldl (fun ac i => insertIntSet i ac) acc)
        | _ => .error ()
      else do
        let i ← pyInt part
        pure (insertIntSet i acc))
    []

/-- Does a page match the `BY_KEYWORD` filter: case-insensitive
substring of the URL, the title, or the description. -/
def kwMatch (kw : String) (p : PageInfo) : Bool :=
  pySubstr (pyLower kw) (pyLower p.url.str) ||
  pySubstr (pyLower kw) (pyLower p.title) ||
  pySubstr (pyLower kw) (pyLower p.description)

/-- Model of `select_pages_interactive` with the operator's decisions supplied
as a script (one entry per visit to the prompt; the recursive
"start over" paths consume the next entry).  Returns the selected URL
list, or the uncaught exception. -/
def selectPages (pages : List PageInfo) : List OpChoice → Except SelectError (List Url)
  | [] => .error .promptEnd
  | choice :: rest =>
    let urls := pages.map (fun p => p.url)
    match choice with
    | .selAll => .ok urls
    | .selIndex s =>
      match parseIndexSpec s with
      | .error _ => .error .valueError
      | .ok idxs =>
        .ok (idxs.filterMap (fun i =>
          if 1 ≤ i ∧ i ≤ (urls.length : Int) then urls.get? (i - 1).toNat else none))
    | .selKeyword kw confirm =>
      let sel := (pages.filter (kwMatch kw)).map (fun p => p.url)
      if confirm then .ok sel else selectPages pages rest
    | .selNone => .ok []
    | .other _ => selectPages pages rest

/-! ## FETCH phase and the interactive pipeline -/

/-- Model of `scrape_selected_pages`: fetch exactly the selected URLs; a page
enters the content map iff its fetch returns HTTP 200. -/
def scrapeSelected (world : Url → Fetch) (fname : Url → String)
    (selected : List Url) : List (Url × String) :=
  selected.filterMap (fun u =>
    if (world u).status = 200 then some (u, fname u) else none)

/-- Model of `interactive_scrape`: DISCOVER with the configured page budget,
SELECT from the script, and — only when the selection is non-empty —
the FETCH pass.  An empty selection short-circuits to an empty content
map. -/
def interactiveScrape (cfg : ScraperConfig) (disallowedPaths : List String)
    (world : Url → Fetch) (fname : Url → String)
    (script : List OpChoice) (fuel : Nat) : Except SelectError (List (Url × String)) :=
  let discovered := (discoverPages cfg disallowedPaths world fuel cfg.maxPages).2
  match selectPages discovered script with
  | .error e => .error e
  | .ok selected =>
    if selected.isEmpty then .ok []
    else .ok (scrapeSelected world fname selected)

/-- The interactive path of `main` (cli-module.py): run the interactive
scrape; `if not content_map: return` skips steps 2-4 (process, embed,
save), and an exception escaping the `try` also aborts before those
steps.  The boolean records whether the downstream pipeline
(chunk/embed/index) executes. -/
def mainInteractive (cfg : ScraperConfig) (disallowedPaths : List String)
    (world : Url → Fetch) (fname : Url → String)
    (script : List OpChoice) (fuel : Nat) : List (Url × String) × Bool :=
  match interactiveScrape cfg disallowedPaths world fname script fuel with
  | .error _ => ([], false)
  | .ok cmap => if cmap.isEmpty then ([], false) else (cmap, true)

/-! ## Content processing (`ContentProcessor._clean_text`) -/

/-- The fields of `ProcessorConfig` that `_clean_text` reads (the
chunking and HTML-conversion fields only parameterize external
collaborators). -/
structure ProcConfig where
  minContentLength : Nat
  removeEmails : Bool
deriving DecidableEq, Repr

/-- Core of `re.sub(r'\s+', ' ', text)`: replace each maximal run of
whitespace characters (newlines included) with a single space.  The
boolean tracks whether we are inside a run already emitted. -/
def collapseWsGo : List Char → Bool → List Char
  | [], _ => []
  | c :: cs, inRun =>
    if pyIsSpace c then
      if inRun then collapseWsGo cs true else ' ' :: collapseWsGo cs true
    else c :: collapseWsGo cs false

/-- Model of the full `re.sub` collapse, over a `String`. -/
def collapseWs (s : String) : String :=
  ⟨collapseWsGo s.data false⟩

/-- Model of `_clean_text`, in the source's order: (1) email redaction via
`re.sub` when configured — the regex engine is an external collaborator,
passed in as `redactEmails`; (2) whitespace collapsing plus `strip()`;
(3) split on newlines, keep only lines whose stripped length exceeds
`min_content_length`, rejoin with newlines. -/
def cleanText (cfg : ProcConfig) (redactEmails : String → String) (text : String) : String :=
  let t1 := if cfg.removeEmails then redactEmails text else text
  let t2 := pyStrip (collapseWs t1)
  let lines := pySplitChar '\n' t2
  let filtered := lines.filter (fun line => cfg.minContentLength < pyLen (pyStrip line))
  pyJoin "\n" filtered

/-! ## Embedding generation (`EmbeddingGenerator.generate_embeddings`)

`processed_content` is a Python dict `url -> (chunks, metadata)`;
it is modelled as an insertion-ordered association list whose keys are
duplicate-free (a dict cannot hold a key twice).  The
sentence-transformer model is external: `encodeB` stands for
`self.model.encode` applied to one batch, whose contract is one vector
per input text, in order.  Vectors themselves are opaque (`V`). -/

/-- The `all_chunks` list: the chunks of every URL concatenated in dict order. -/
def allChunksOf {M : Type} (pc : List (String × List String × M)) : List String :=
  pc.flatMap (fun e => e.2.1)

/-- The `url_to_chunk_indices` map: each URL's contiguous `(start_idx, end_idx)`
range inside `all_chunks`, accumulated exactly as the collection loop
does (`start_idx = len(all_chunks)` before extending). -/
def urlIndicesGo {M : Type} (s : Nat) : List (String × List String × M) → List (String × Nat × Nat)
  | [] => []
  | (url, chunks, _) :: rest =>
    (url, s, s + chunks.length) :: urlIndicesGo (s + chunks.length) rest

/-- The full index map, starting from an empty `all_chunks`. -/
def urlIndices {M : Type} (pc : List (String × List String × M)) : List (String × Nat × Nat) :=
  urlIndicesGo 0 pc

/-- The `all_chunks[i:i + batch_size]` slices for
`range(0, len(all_chunks), batch_size)`.  Python raises `ValueError`
for a zero step; `batch_size` comes from config (default 32), and the
theorems assume it is positive, under which this definition matches the
loop. -/
def batches {α : Type} (bs : Nat) : List α → List (List α)
  | [] => []
  | x :: xs =>
    if _h : bs = 0 then []
    else (x :: xs).take bs :: batches bs ((x :: xs).drop bs)
termination_by l => l.length
decreasing_by
  simp [List.length_drop]
  omega

/-- The flat `embeddings` list: `model.encode` applied batch by batch,
results concatenated in order. -/
def globalEmbeddings {M V : Type} (encodeB : List String → List V) (bs : Nat)
    (pc : List (String × List String × M)) : List V :=
  ((batches bs (allChunksOf pc)).map encodeB).flatten

/-- Model of `generate_embeddings`: reassemble per-URL embedding lists by slicing
the flat embedding list at each URL's recorded range
(`embeddings[start_idx:end_idx]`).  The lookup cannot miss (every key of
`processed_content` is a key of `url_to_chunk_indices`); the `none`
branch mirrors what a Python `KeyError` would be and is unreachable. -/
def generateEmbeddings {M V : Type} (encodeB : List String → List V) (bs : Nat)
    (pc : List (String × List String × M)) : List (String × List String × List V × M) :=
  let embs := globalEmbeddings encodeB bs pc
  pc.map (fun e =>
    match (urlIndices pc).lookup e.1 with
    | some (s, t) => (e.1, e.2.1, (embs.drop s).take (t - s), e.2.2)
    | none => (e.1, e.2.1, [], e.2.2))

/-! ## Vector storage (`VectorStorage.save` / `load`)

Vectors are `List S` (the scalar type is opaque: the code never
computes with float values, it only stacks them, and `np.array` imposes
rectangularity).  The two artifact files become the fields of a
`StorageState`; JSON and `faiss.write_index` round-trip their payload
faithfully, so the file contents are the Lean values themselves. -/

/-- Per-chunk metadata entry: `metadata.copy()` plus `chunk_id` (the
chunk's ordinal within its page) and the truncated `chunk_text`. -/
structure ChunkMeta (M : Type) where
  base : M
  chunkId : Nat
  chunkText : String
deriving DecidableEq, Repr

/-- A flat L2 faiss index: dimension plus the vectors added, in order. -/
structure FaissIndex (S : Type) where
  dim : Nat
  vectors : List (List S)
deriving DecidableEq, Repr

/-- The JSON metadata sidecar `{chunks: [...], metadata: [...]}`. -/
structure MetaFile (M : Type) where
  chunks : List String
  metadata : List (ChunkMeta M)
deriving DecidableEq, Repr

/-- The two artifact paths' contents (`None` = file absent). -/
structure StorageState (S M : Type) where
  indexFile : Option (FaissIndex S)
  metadataFile : Option (MetaFile M)
deriving DecidableEq, Repr

/-- The flattening loop of `save`: for each URL,
`zip(chunks, chunk_embeddings)` pairs chunks with embeddings (silently
stopping at the shorter list) and appends to the three parallel
accumulators; `enumerate` numbers the pairs from 0 within the URL. -/
def flattenData {S M : Type} :
    List (String × List String × List (List S) × M) →
    List String × List (List S) × List (ChunkMeta M)
  | [] => ([], [], [])
  | (_, chunks, chunkEmbeddings, m) :: rest =>
    let paired := chunks.zip chunkEmbeddings
    let (cs, es, ms) := flattenData rest
    (paired.map (fun p => p.1) ++ cs,
     paired.map (fun p => p.2) ++ es,
     paired.enum.map (fun p => ⟨m, p.1, pyTruncate100 p.2.1⟩) ++ ms)

/-- Model of `save`: flatten, then `np.array(all_embeddings)` — an empty list
yields a 1-D array of shape `(0,)` whose missing `shape[1]` raises
`IndexError`, and a ragged list raises `ValueError`; otherwise build
the flat L2 index over all vectors and write both artifacts. -/
def save {S M : Type} [DecidableEq S]
    (data : List (String × List String × List (List S) × M)) :
    Except String (StorageState S M) :=
  let (allChunks, allEmbeddings, allMetadata) := flattenData data
  match allEmbeddings with
  | [] => .error "IndexError: shape (0,) has no second axis"
  | v :: vs =>
    if vs.all (fun w => w.length = v.length) then
      .ok { indexFile := some { dim := v.length, vectors := v :: vs }
            metadataFile := some { chunks := allChunks, metadata := allMetadata } }
    else .error "ValueError: ragged embedding list"

/-- Model of `load`: `FileNotFoundError` if either artifact is absent, otherwise
return the index and the two parallel lists from the sidecar. -/
def load {S M : Type} (st : StorageState S M) :
    Except String (FaissIndex S × List String × List (ChunkMeta M)) :=
  match st.indexFile, st.metadataFile with
  | some ix, some mf => .ok (ix, mf.chunks, mf.metadata)
  | _, _ => .error "FileNotFoundError: Index or metadata file not found"

/-! ## Crawl-loop invariants -/

/-- Any property implied by `isAllowed` and holding for the initial
queue, visited set and content map is preserved by the scrape loop:
the only URLs ever added to the frontier come from `extractLinks`,
which filters through the politeness policy. -/
theorem scrapeLoop_preserves {allowedDomains disallowedPaths : List String}
    {maxPages : Nat} {world : Url → Fetch} {fname : Url → String}
    (Q : Url → Prop) (hQ : ∀ u, isAllowed allowedDomains disallowedPaths u = true → Q u) :
    ∀ (fuel : Nat) (queue visited : List Url) (cmap : List (Url × String)),
      (∀ u ∈ queue, Q u) → (∀ u ∈ visited, Q u) → (∀ p ∈ cmap, Q p.1) →
      (∀ u ∈ (scrapeLoop allowedDomains disallowedPaths maxPages world fname
        fuel queue visited cmap).1, Q u) ∧
      (∀ p ∈ (scrapeLoop allowedDomains disallowedPaths maxPages world fname
        fuel queue visited cmap).2, Q p.1) := by
  intro fuel
  induction fuel with
  | zero => intro queue visited cmap _ hv hc; exact ⟨hv, hc⟩
  | succ n ih =>
    intro queue visited cmap hq hv hc
    match queue with
    | [] => exact ⟨hv, hc⟩
    | url :: rest =>
      rw [scrapeLoop]
      split
      · split
        · exact ih rest visited cmap (fun u hu => hq u (List.mem_cons_of_mem _ hu)) hv hc
        · have hqu : Q url := hq url (List.mem_cons_self url rest)
          have hv' : ∀ u ∈ visited ++ [url], Q u := by
            intro u hu
            rcases List.mem_append.mp hu with h | h
            · exact hv u h
            · rcases List.mem_singleton.mp h with rfl; exact hqu
          split
          · apply ih
            · intro u hu
              rcases List.mem_append.mp hu with h | h
              · exact hq u (List.mem_cons_of_mem _ h)
              · have hf := List.of_mem_filter h
                rw [Bool.and_eq_true] at hf
                exact hQ u hf.1
            · exact hv'
            · intro p hp
              rcases List.mem_append.mp hp with h | h
              · exact hc p h
              · rcases List.mem_singleton.mp h with rfl; exact hqu
          · exact ih rest (visited ++ [url]) cmap
              (fun u hu => hq u (List.mem_cons_of_mem _ hu)) hv' hc
      · exact ⟨hv, hc⟩

/-- The scrape loop keeps the visited set duplicate-free and within the
page budget: a URL is appended only after the `url in visited` check
fails, and only while `len(visited) < max_pages`. -/
theorem scrapeLoop_visited_inv {allowedDomains disallowedPaths : List String}
    {maxPages : Nat} {world : Url → Fetch} {fname : Url → String} :
    ∀ (fuel : Nat) (queue visited : List Url) (cmap : List (Url × String)),
      visited.Nodup → visited.length ≤ maxPages →
      (scrapeLoop allowedDomains disallowedPaths maxPages world fname
        fuel queue visited cmap).1.Nodup ∧
      (scrapeLoop allowedDomains disallowedPaths maxPages world fname
        fuel queue visited cmap).1.length ≤ maxPages := by
  intro fuel
  induction fuel with
  | zero => intro queue visited cmap hnd hle; exact ⟨hnd, hle⟩
  | succ n ih =>
    intro queue visited cmap hnd hle
    match queue with
    | [] => exact ⟨hnd, hle⟩
    | url :: rest =>
      rw [scrapeLoop]
      split
      · rename_i hlt
        split
        · exact ih rest visited cmap hnd hle
        · rename_i hnotmem
          have hnd' : (visited ++ [url]).Nodup := by
            simp [List.nodup_append, hnd, hnotmem]
          have hle' : (visited ++ [url]).length ≤ maxPages := by
            simp only [List.length_append, List.length_singleton]
            omega
          split
          · exact ih _ _ _ hnd' hle'
          · exact ih _ _ _ hnd' hle'
      · exact ⟨hnd, hle⟩

/-- Mirror of `scrapeLoop_visited_inv` for the interactive discovery
loop, whose frontier management is identical. -/
theorem discoverLoop_visited_inv {allowedDomains disallowedPaths : List String}
    {maxPages : Nat} {world : Url → Fetch} :
    ∀ (fuel : Nat) (queue visited : List Url) (discovered : List PageInfo),
      visited.Nodup → visited.length ≤ maxPages →
      (discoverLoop allowedDomains disallowedPaths maxPages world
        fuel queue visited discovered).1.Nodup ∧
      (discoverLoop allowedDomains disallowedPaths maxPages world
        fuel queue visited discovered).1.length ≤ maxPages := by
  intro fuel
  induction fuel with
  | zero => intro queue visited discovered hnd hle; exact ⟨hnd, hle⟩
  | succ n ih =>
    intro queue visited discovered hnd hle
    match queue with
    | [] => exact ⟨hnd, hle⟩
    | url :: rest =>
      rw [discoverLoop]
      split
      · rename_i hlt
        split
        · exact ih rest visited discovered hnd hle
        · rename_i hnotmem
          have hnd' : (visited ++ [url]).Nodup := by
            simp [List.nodup_append, hnd, hnotmem]
          have hle' : (visited ++ [url]).length ≤ maxPages := by
            simp only [List.length_append, List.length_singleton]
            omega
          split
          · exact ih _ _ _ hnd' hle'
          · exact ih _ _ _ hnd' hle'
      · exact ⟨hnd, hle⟩

/-! ## Concrete crawl fixtures -/

/-- Filename assignment used in concrete runs (stands for the
`f"{filename}_{hash(url)}.html"` slug; its exact value is irrelevant to
every claim). -/
def fnamePath (u : Url) : String := u.path

/-- A start URL whose path matches a disallow prefix. -/
def uPriv : Url := ⟨"https", "e.com", "/private/x"⟩

/-- Config whose only start URL is the disallowed `uPriv`. -/
def cfgStart : ScraperConfig :=
  { domain := "e.com", startUrls := [uPriv], maxPages := 10,
    respectRobotsTxt := true, userAgent := "ua", maxDepth := none,
    allowedDomains := ["e.com"] }

/-- A world where every fetch succeeds with no outbound links. -/
def worldLeaf : Url → Fetch :=
  fun _ => { status := 200, links := [], title := "", description := "",
             contentSize := 0, htmlSize := 0 }

def uA : Url := ⟨"https", "e.com", "/a"⟩
def uB : Url := ⟨"https", "e.com", "/b"⟩
def uC : Url := ⟨"https", "e.com", "/c"⟩
def uAdmin : Url := ⟨"https", "e.com", "/admin/x"⟩

/-- Config with a depth limit of 1 configured. -/
def cfgDepth : ScraperConfig :=
  { domain := "e.com", startUrls := [uA], maxPages := 10,
    respectRobotsTxt := true, userAgent := "ua", maxDepth := some 1,
    allowedDomains := ["e.com"] }

/-- Linear link chain `uA → uB → uC`: `uC` is only discoverable at
link depth 2 from the start URL `uA`. -/
def worldChain : Url → Fetch :=
  fun u =>
    if u = uA then
      { status := 200, links := [uB], title := "", description := "",
        contentSize := 0, htmlSize := 0 }
    else if u = uB then
      { status := 200, links := [uC], title := "", description := "",
        contentSize := 0, htmlSize := 0 }
    else
      { status := 200, links := [], title := "", description := "",
        contentSize := 0, htmlSize := 0 }

/-- Config starting from the allowed page `uA`. -/
def cfgHome : ScraperConfig :=
  { domain := "e.com", startUrls := [uA], maxPages := 10,
    respectRobotsTxt := true, userAgent := "ua", maxDepth := none,
    allowedDomains := ["e.com"] }

/-- World where `uA` links to the disallowed `uAdmin` and to `uB`. -/
def worldAdmin : Url → Fetch :=
  fun u =>
    if u = uA then
      { status := 200, links := [uAdmin, uB], title := "", description := "",
        contentSize := 0, htmlSize := 0 }
    else
      { status := 200, links := [], title := "", description := "",
        contentSize := 0, htmlSize := 0 }

/-! ## C1: politeness of the frontier -/

/-- C1, counterexample: the claim universally quantifies over all
enqueued URLs including the start URLs, but `scrape` seeds the frontier
with `config.start_urls` unfiltered.  With the disallow prefix
"/private" and start URL "https://e.com/private/x", that URL fails
`_is_allowed` yet is fetched and appears in the returned content map. -/
theorem scrape_disallowed_start_url_is_fetched :
    isAllowed cfgStart.allowedDomains ["/private"] uPriv = false ∧
    uPriv ∈ (scrape cfgStart ["/private"] worldLeaf fnamePath 10).1 ∧
    (uPriv, "/private/x") ∈ (scrape cfgStart ["/private"] worldLeaf fnamePath 10).2 := by
  decide

/-- C1 (amended): every URL the crawl loop itself enqueues does satisfy
the politeness policy and the allowed-domain set, so a URL that fails
`_is_allowed` and is not among the session's start URLs is never
visited (hence never fetched) and never appears in the content map. -/
theorem scrape_disallowed_never_fetched
    (cfg : ScraperConfig) (disallowedPaths : List String)
    (world : Url → Fetch) (fname : Url → String) (fuel : Nat) (u : Url)
    (hdis : isAllowed cfg.allowedDomains disallowedPaths u = false)
    (hstart : u ∉ cfg.startUrls) :
    u ∉ (scrape cfg disallowedPaths world fname fuel).1 ∧
    ∀ p ∈ (scrape cfg disallowedPaths world fname fuel).2, p.1 ≠ u := by
  have key := @scrapeLoop_preserves cfg.allowedDomains disallowedPaths cfg.maxPages world fname
    (fun v => v ∈ cfg.startUrls ∨ isAllowed cfg.allowedDomains disallowedPaths v = true)
    (fun v hv => Or.inr hv) fuel cfg.startUrls [] []
    (fun v hv => Or.inl hv) (by intro v hv; cases hv) (by intro p hp; cases hp)
  constructor
  · intro hmem
    rcases key.1 u hmem with h | h
    · exact hstart h
    · rw [hdis] at h; cases h
  · intro p hp hpu
    rcases key.2 p hp with h | h
    · rw [hpu] at h; exact hstart h
    · rw [hpu, hdis] at h; cases h

/-- Witness for `scrape_disallowed_never_fetched`: the disallowed,
non-start URL "https://e.com/admin/x" is linked from the start page but
never visited and never in the content map. -/
theorem scrape_disallowed_never_fetched_witness :
    isAllowed cfgHome.allowedDomains ["/admin"] uAdmin = false ∧
    uAdmin ∉ cfgHome.startUrls ∧
    (uAdmin ∉ (scrape cfgHome ["/admin"] worldAdmin fnamePath 10).1 ∧
      ∀ p ∈ (scrape cfgHome ["/admin"] worldAdmin fnamePath 10).2, p.1 ≠ uAdmin) :=
  ⟨by decide, by decide,
    scrape_disallowed_never_fetched cfgHome ["/admin"] worldAdmin fnamePath 10 uAdmin
      (by decide) (by decide)⟩

/-! ## C4: the configured depth limit is not enforced -/

/-- C4: with `max_depth = 1` configured, the depth-2 URL `uC`
(reachable only through `uA → uB → uC`) is still enqueued, visited and
fetched: no part of the crawl loop ever reads `config.max_depth`. -/
theorem scrape_ignores_max_depth :
    cfgDepth.maxDepth = some 1 ∧
    uC ∈ (scrape cfgDepth [] worldChain fnamePath 10).1 ∧
    (uC, "/c") ∈ (scrape cfgDepth [] worldChain fnamePath 10).2 := by
  decide

/-! ## C7: visited-set uniqueness and page budget -/

/-- C7: in both the standard scrape loop and the interactive discovery
loop, the visited set never holds a URL twice and its size never
exceeds the page budget, at every fuel (hence at every intermediate
state of the crawl pass). -/
theorem crawl_visited_nodup_and_bounded
    (cfg : ScraperConfig) (disallowedPaths : List String)
    (world : Url → Fetch) (fname : Url → String) (fuel maxPages : Nat) :
    ((scrape cfg disallowedPaths world fname fuel).1.Nodup ∧
      (scrape cfg disallowedPaths world fname fuel).1.length ≤ cfg.maxPages) ∧
    ((discoverPages cfg disallowedPaths world fuel maxPages).1.Nodup ∧
      (discoverPages cfg disallowedPaths world fuel maxPages).1.length ≤ maxPages) :=
  ⟨scrapeLoop_visited_inv fuel cfg.startUrls [] [] List.nodup_nil (Nat.zero_le _),
    discoverLoop_visited_inv fuel cfg.startUrls [] [] List.nodup_nil (Nat.zero_le _)⟩

/-! ## C8 / C10: the BY_INDEX branch of the SELECT state -/

/-- The URL of the i-th discovered page in the selection fixtures. -/
def pUrl (i : Nat) : Url := ⟨"https", "e.com", "/p" ++ toString i⟩

/-- Eight discovered pages p1..p8 in discovery order. -/
def pagesW : List PageInfo :=
  (List.range 8).map (fun i =>
    { url := pUrl (i + 1), title := "title " ++ toString (i + 1),
      description := "desc", contentSize := 100, htmlSize := 200 })

/-- C8: the BY_INDEX input "1,3,5-7" over the eight discovered pages
p1..p8 selects exactly {p1, p3, p5, p6, p7}; the second conjunct shows
an out-of-range index (9 over 8 pages) being silently dropped. -/
theorem select_by_index_example :
    selectPages pagesW [OpChoice.selIndex "1,3,5-7"] =
      .ok [pUrl 1, pUrl 3, pUrl 5, pUrl 6, pUrl 7] ∧
    selectPages pagesW [OpChoice.selIndex "1,9"] = .ok [pUrl 1] := by
  decide

/-- C10: a BY_INDEX token that is not a well-formed integer or range
("a", "5-", "1..3") raises an uncaught `ValueError` that aborts the
selection — in contrast to an out-of-range index, which is silently
dropped (fourth conjunct), and to an invalid menu choice, which only
re-prompts (fifth conjunct). -/
theorem select_by_index_malformed_raises :
    selectPages pagesW [OpChoice.selIndex "a"] = .error .valueError ∧
    selectPages pagesW [OpChoice.selIndex "5-"] = .error .valueError ∧
    selectPages pagesW [OpChoice.selIndex "1..3"] = .error .valueError ∧
    selectPages pagesW [OpChoice.selIndex "9"] = .ok [] ∧
    selectPages pagesW [OpChoice.other 7, OpChoice.selAll] =
      .ok (pagesW.map (fun p => p.url)) := by
  decide

/-! ## C9: empty selection skips the downstream pipeline -/

/-- C9: whenever the operator chooses NONE, or a keyword filter matches
no discovered page and the operator confirms, the final content map is
empty and the downstream chunk/embed/index stages do not run. -/
theorem interactive_empty_selection_skips_pipeline
    (cfg : ScraperConfig) (disallowedPaths : List String)
    (world : Url → Fetch) (fname : Url → String) (fuel : Nat)
    (script rest : List OpChoice)
    (h : script = OpChoice.selNone :: rest ∨
      ∃ kw, script = OpChoice.selKeyword kw true :: rest ∧
        ((discoverPages cfg disallowedPaths world fuel cfg.maxPages).2.filter
          (kwMatch kw)) = []) :
    mainInteractive cfg disallowedPaths world fname script fuel = ([], false) := by
  rcases h with h | ⟨kw, h, hkw⟩
  · subst h
    simp [mainInteractive, interactiveScrape, selectPages]
  · subst h
    simp [mainInteractive, interactiveScrape, selectPages, hkw]

/-- Witness for `interactive_empty_selection_skips_pipeline`: the
operator answers NONE after discovering the chain site. -/
theorem interactive_empty_selection_skips_pipeline_witness :
    mainInteractive cfgHome [] worldChain fnamePath [OpChoice.selNone] 10 = ([], false) :=
  interactive_empty_selection_skips_pipeline cfgHome [] worldChain fnamePath 10
    [OpChoice.selNone] [] (Or.inl rfl)

/-! ## C6: `_clean_text` collapses newlines before filtering lines -/

/-- Processor config with the default minimum content length and email
redaction off (the failing input contains no email, so the redaction
step is irrelevant to it). -/
def cfgClean : ProcConfig := { minContentLength := 50, removeEmails := false }

/-- A short navigation remnant followed by a 60-character line. -/
def textNav : String := "nav\n" ++ ⟨List.replicate 60 'x'⟩

/-- C6: the claim says each line shorter than the minimum length is
dropped while longer lines are kept.  But `re.sub(r'\s+', ' ', text)`
runs before the `text.split('\n')`, so the newline separating the short
line "nav" from the long line is already a space: the split yields a
single line and "nav" survives in the cleaned output (first and second
conjuncts), even though its stripped length (3) is far below the
threshold (third conjunct). -/
theorem clean_text_short_line_not_dropped :
    cleanText cfgClean id textNav = "nav " ++ ⟨List.replicate 60 'x'⟩ ∧
    (pySplitChar '\n' (pyStrip (collapseWs textNav))).length = 1 ∧
    pyLen (pyStrip "nav") < cfgClean.minContentLength := by
  decide

/-! ## C3 / C5: persistence round trip and mismatch behaviour -/

/-- The chunk and metadata lists flattened by `save` have equal length,
and that common length is the sum over the input URLs of
`min(len(chunks), len(embeddings))` — the length of each URL's
`zip(chunks, chunk_embeddings)`. -/
theorem flattenData_lengths {S M : Type}
    (data : List (String × List String × List (List S) × M)) :
    (flattenData data).1.length = (flattenData data).2.2.length ∧
    (flattenData data).1.length =
      (data.map (fun e => min e.2.1.length e.2.2.1.length)).sum := by
  induction data with
  | nil => exact ⟨rfl, rfl⟩
  | cons e rest ih =>
    obtain ⟨ih1, ih2⟩ := ih
    obtain ⟨url, chunks, chunkEmbeddings, m⟩ := e
    simp only [flattenData, List.length_append, List.length_map, List.enum_length,
      List.length_zip, List.map_cons, List.sum_cons]
    exact ⟨by rw [ih1], by rw [ih2]⟩

/-- C3: after a successful `save(X)`, `load()` returns the chunk list
and metadata list that `save` flattened and persisted, element-wise and
in order (the returned lists are syntactically those flattened lists),
and the two lists have the persisted chunk count as their common
length. -/
theorem save_load_roundtrip {S M : Type} [DecidableEq S]
    (data : List (String × List String × List (List S) × M))
    (st : StorageState S M) (h : save data = .ok st) :
    (∃ ix, load st = .ok (ix, (flattenData data).1, (flattenData data).2.2)) ∧
    (flattenData data).2.2.length = (flattenData data).1.length := by
  refine ⟨?_, ((flattenData_lengths data).1).symm⟩
  simp only [save] at h
  split at h
  · cases h
  · split at h
    · cases h
      exact ⟨_, rfl⟩
    · cases h

/-- Round-trip fixture: two chunks with two one-dimensional vectors. -/
def dataRT : List (String × List String × List (List Int) × Nat) :=
  [("u", ["hello", "world"], [[1], [2]], 42)]

/-- The storage state `save dataRT` produces. -/
def stRT : StorageState Int Nat :=
  { indexFile := some { dim := 1, vectors := [[1], [2]] }
    metadataFile := some { chunks := ["hello", "world"],
                           metadata := [⟨42, 0, "hello"⟩, ⟨42, 1, "world"⟩] } }

/-- Witness for `save_load_roundtrip` at `dataRT`. -/
theorem save_load_roundtrip_witness :
    (∃ ix, load stRT = .ok (ix, (flattenData dataRT).1, (flattenData dataRT).2.2)) ∧
    (flattenData dataRT).2.2.length = (flattenData dataRT).1.length :=
  save_load_roundtrip dataRT stRT (by decide)

/-- Mismatch fixture: URL "u" has two chunks but only one embedding. -/
def dataMism : List (String × List String × List (List Int) × Nat) :=
  [("u", ["a", "b"], [[1, 2]], 0)]

/-- C5, counterexample: on `dataMism` — an embedding count mismatch
(two chunks, one embedding) — `save` does not abort: it completes with
`.ok` and persists exactly the single zipped pair (the chunk "a"). -/
theorem save_mismatch_does_not_abort :
    (2 : Nat) ≠ 1 ∧ dataMism = [("u", ["a", "b"], [[1, 2]], 0)] ∧
    (save dataMism).toOption.isSome = true ∧
    ((save dataMism).toOption.bind (fun st => st.metadataFile.map (fun mf => mf.chunks))) =
      some ["a"] := by
  decide

/-- C5 (amended): an embedding count mismatch is silently truncated,
not fatal: whenever the flattened embedding list is non-empty and
rectangular, `save` completes successfully, persisting one entry per
`zip`-pair — `min(len(chunks), len(embeddings))` entries per URL —
regardless of any per-URL count mismatch.  (`save` aborts only when the
flattened embedding array is empty or ragged, where `numpy` raises.) -/
theorem save_mismatch_truncates {S M : Type} [DecidableEq S]
    (data : List (String × List String × List (List S) × M))
    (v : List S) (vs : List (List S))
    (hemb : (flattenData data).2.1 = v :: vs)
    (hrect : vs.all (fun w => w.length = v.length) = true) :
    save data =
      .ok { indexFile := some { dim := v.length, vectors := v :: vs }
            metadataFile := some { chunks := (flattenData data).1,
                                   metadata := (flattenData data).2.2 } } ∧
    (flattenData data).1.length =
      (data.map (fun e => min e.2.1.length e.2.2.1.length)).sum := by
  refine ⟨?_, (flattenData_lengths data).2⟩
  simp only [save, hemb, hrect, if_true]

/-- Witness for `save_mismatch_truncates` at the mismatched input
`dataMism`. -/
theorem save_mismatch_truncates_witness :
    (save dataMism =
      .ok { indexFile := some { dim := 2, vectors := [[1, 2]] }
            metadataFile := some { chunks := (flattenData dataMism).1,
                                   metadata := (flattenData dataMism).2.2 } } ∧
    (flattenData dataMism).1.length =
      (dataMism.map (fun e => min e.2.1.length e.2.2.1.length)).sum) :=
  save_mismatch_truncates dataMism [1, 2] [] rfl rfl

/-! ## C2: embedding/chunk alignment -/

/-- With a positive batch size, concatenating the batch slices gives
back the original list (`all_chunks[i:i+bs]` for `i = 0, bs, 2*bs, ...`
partitions `all_chunks`). -/
theorem batches_flatten {α : Type} (bs : Nat) (hbs : 0 < bs) :
    ∀ (n : Nat) (l : List α), l.length ≤ n → (batches bs l).flatten = l := by
  intro n
  induction n with
  | zero =>
    intro l hl
    have hnil : l = [] := List.eq_nil_of_length_eq_zero (Nat.le_zero.mp hl)
    subst hnil
    rw [batches]
    rfl
  | succ k ih =>
    intro l hl
    match l with
    | [] => rw [batches]; rfl
    | x :: xs =>
      rw [batches, dif_neg (Nat.pos_iff_ne_zero.mp hbs), List.flatten_cons,
        ih ((x :: xs).drop bs) ?_, List.take_append_drop]
      rw [List.length_drop]
      simp only [List.length_cons] at hl ⊢
      omega

/-- If the external model returns one vector per input of each batch,
the flat embedding list has one entry per chunk. -/
theorem globalEmbeddings_length {M V : Type}
    (encodeB : List String → List V) (bs : Nat)
    (pc : List (String × List String × M))
    (hbs : 0 < bs) (hlen : ∀ b, (encodeB b).length = b.length) :
    (globalEmbeddings encodeB bs pc).length = (allChunksOf pc).length := by
  have key : ∀ (bls : List (List String)),
      ((bls.map encodeB).flatten).length = bls.flatten.length := by
    intro bls
    induction bls with
    | nil => rfl
    | cons b rest ih =>
      simp only [List.map_cons, List.flatten_cons, List.length_append, hlen, ih]
  rw [globalEmbeddings, key, batches_flatten bs hbs (allChunksOf pc).length _ le_rfl]

/-- Looking up a key that does not occur earlier in the index map
returns the range accumulated over the preceding entries. -/
theorem lookup_urlIndicesGo {M : Type} (url : String) (chunks : List String) (m : M)
    (post : List (String × List String × M)) :
    ∀ (pre : List (String × List String × M)) (s : Nat),
      url ∉ pre.map (fun e => e.1) →
      List.lookup url (urlIndicesGo s (pre ++ (url, chunks, m) :: post)) =
        some (s + (allChunksOf pre).length,
          s + (allChunksOf pre).length + chunks.length) := by
  intro pre
  induction pre with
  | nil =>
    intro s _
    simp [urlIndicesGo, List.lookup, allChunksOf]
  | cons e rest ih =>
    intro s hmem
    obtain ⟨k, kchunks, km⟩ := e
    simp only [List.map_cons, List.mem_cons, not_or] at hmem
    rw [List.cons_append, urlIndicesGo]
    have hne : (url == k) = false := beq_eq_false_iff_ne.mpr hmem.1
    simp only [List.lookup, hne]
    rw [ih (s + kchunks.length) hmem.2]
    simp only [Option.some.injEq, Prod.mk.injEq, allChunksOf, List.flatMap_cons,
      List.length_append]
    omega

/-- Association-list lookup on a mapped list whose mapping preserves
keys finds the image of the designated entry when its key does not
occur earlier (the Python dict comprehension underlying `results`). -/
theorem lookup_map_keyed {β γ : Type} (f : String × β → String × γ)
    (hf : ∀ e, (f e).1 = e.1) (x : String × β) :
    ∀ (pre post : List (String × β)),
      x.1 ∉ pre.map (fun e => e.1) →
      List.lookup x.1 ((pre ++ x :: post).map f) = some (f x).2 := by
  intro pre
  induction pre with
  | nil =>
    intro post _
    rcases hfx : f x with ⟨a, b⟩
    have ha : a = x.1 := by rw [← hf x, hfx]
    subst ha
    simp [List.lookup, hfx]
  | cons e rest ih =>
    intro post hmem
    simp only [List.map_cons, List.mem_cons, not_or] at hmem
    rcases hfe : f e with ⟨a, b⟩
    have ha : a = e.1 := by rw [← hf e, hfe]
    subst ha
    have hne : (x.1 == e.1) = false := beq_eq_false_iff_ne.mpr hmem.1
    rw [List.cons_append, List.map_cons, hfe]
    simp only [List.lookup, hne]
    exact ih post hmem.2

/-- C2: assuming the external model returns one vector per input text
per batch and a positive batch size, `generate_embeddings` aligns
embeddings with chunks: the global embedding count equals the global
chunk count (first conjunct); each URL's output entry carries its own
chunks unchanged together with the contiguous slice of the global
embedding list at that URL's recorded range (second conjunct); that
slice has exactly the URL's chunk count (third conjunct); and the same
range of the global chunk list is exactly the URL's chunk list in its
original order, so the i-th embedding of the slice is the model's
output for the URL's i-th chunk (fourth conjunct). -/
theorem generate_embeddings_alignment {M V : Type}
    (encodeB : List String → List V) (bs : Nat)
    (pc pre post : List (String × List String × M))
    (url : String) (chunks : List String) (m : M)
    (hbs : 0 < bs) (hlen : ∀ b, (encodeB b).length = b.length)
    (hnd : (pc.map (fun e => e.1)).Nodup)
    (hpc : pc = pre ++ (url, chunks, m) :: post) :
    (globalEmbeddings encodeB bs pc).length = (allChunksOf pc).length ∧
    (generateEmbeddings encodeB bs pc).lookup url =
      some (chunks,
        ((globalEmbeddings encodeB bs pc).drop (allChunksOf pre).length).take chunks.length,
        m) ∧
    (((globalEmbeddings encodeB bs pc).drop (allChunksOf pre).length).take
      chunks.length).length = chunks.length ∧
    ((allChunksOf pc).drop (allChunksOf pre).length).take chunks.length = chunks := by
  subst hpc
  have hglen := globalEmbeddings_length encodeB bs
    (pre ++ (url, chunks, m) :: post) hbs hlen
  have hchunks : allChunksOf (pre ++ (url, chunks, m) :: post) =
      allChunksOf pre ++ (chunks ++ allChunksOf post) := by
    simp [allChunksOf, List.flatMap_append]
  have hx : url ∉ pre.map (fun e => e.1) := by
    rw [List.map_append, List.nodup_append] at hnd
    intro hmem
    refine hnd.2.2 hmem ?_
    rw [List.map_cons]
    exact List.mem_cons_self _ _
  refine ⟨hglen, ?_, ?_, ?_⟩
  · have hlook : (urlIndices (pre ++ (url, chunks, m) :: post)).lookup url =
        some ((allChunksOf pre).length, (allChunksOf pre).length + chunks.length) := by
      rw [urlIndices]
      have := lookup_urlIndicesGo url chunks m post pre 0 hx
      simpa using this
    simp only [generateEmbeddings]
    rw [lookup_map_keyed _ ?_ (url, chunks, m) pre post hx]
    · simp only [hlook]
      simp [Nat.add_sub_cancel_left]
    · intro e
      cases hcase : (urlIndices (pre ++ (url, chunks, m) :: post)).lookup e.1 with
      | none => simp [hcase]
      | some st =>
        obtain ⟨s, t⟩ := st
        simp [hcase]
  · rw [List.length_take, List.length_drop, hglen, hchunks]
    simp [List.length_append]
  · rw [hchunks, List.drop_left, List.take_left]

/-- A concrete length-preserving stand-in for the embedding model. -/
def encConst : List String → List Nat :=
  fun b => b.map (fun _ => 7)

/-- Processed content for the alignment witness: two URLs with three
and one chunks. -/
def pcW : List (String × List String × Nat) :=
  [("u", ["c1", "c2", "c3"], 5), ("v", ["d1"], 6)]

/-- Witness for `generate_embeddings_alignment` at `pcW`, batch size 2,
looking up the first URL "u". -/
theorem generate_embeddings_alignment_witness :
    (globalEmbeddings encConst 2 pcW).length = (allChunksOf pcW).length ∧
    (generateEmbeddings encConst 2 pcW).lookup "u" =
      some (["c1", "c2", "c3"],
        ((globalEmbeddings encConst 2 pcW).drop
          (allChunksOf ([] : List (String × List String × Nat))).length).take
          (["c1", "c2", "c3"] : List String).length,
        5) ∧
    (((globalEmbeddings encConst 2 pcW).drop
      (allChunksOf ([] : List (String × List String × Nat))).length).take
      (["c1", "c2", "c3"] : List String).length).length =
      (["c1", "c2", "c3"] : List String).length ∧
    ((allChunksOf pcW).drop
      (allChunksOf ([] : List (String × List String × Nat))).length).take
      (["c1", "c2", "c3"] : List String).length = ["c1", "c2", "c3"] :=
  generate_embeddings_alignment encConst 2 pcW [] [("v", ["d1"], 6)]
    "u" ["c1", "c2", "c3"] 5 (by decide)
    (fun b => by simp [encConst]) (by decide) rfl

end RagScraper
